import Mathlib

/-!
Verification of the books-to-scrape crawler against its specification.

The development shallowly embeds the crawler's pure logic:
* `site_url.rs` / the URL helpers of `main.rs`  — a segment-level model of
  the `url` crate's parse/join for relative references (`Url`, `urlJoin`),
  and the three builders `build_books_toscrape_url`, `build_book_page_url`,
  `build_catelogue_url`;
* `parse_int` and the six field extractors of `Book` — over a `BookPage`
  record that holds, for each fixed CSS selector the code queries, the text
  of its first match (or `none` when the selector matches nothing);
* the listing walker (`CatelogueUrlIterator` + the buffered/take_while
  stream of `main`) and the detail pipeline / aggregation of `main`.
-/

namespace BooksToScrape

/-! ### URL model

A parsed URL, as the `url` crate represents the ones this program builds:
a scheme, a host, and a path stored as `/`-separated segments.  The path
`/` is the segment list `[""]`, `/catalogue/` is `["catalogue", ""]`
(a trailing empty segment encodes the trailing slash). -/

structure Url where
  scheme : String
  host : String
  path : List String
deriving DecidableEq, Repr

/-- Split a character list at every occurrence of `sep` (`str::split` on a
single-character pattern).  Always returns at least one (possibly empty)
piece. -/
def splitOnChar (sep : Char) : List Char → List (List Char)
  | [] => [[]]
  | c :: rest =>
    if c = sep then [] :: splitOnChar sep rest
    else
      match splitOnChar sep rest with
      | [] => [[c]]
      | h :: t => (c :: h) :: t

/-- The `url` crate's segmentation of a path string at `'/'`. -/
def splitChars (l : List Char) : List (List Char) :=
  splitOnChar '/' l

/-- A path string as a list of segments. -/
def splitSegs (s : String) : List String :=
  (splitChars s.toList).map List.asString

/-- RFC 3986 §5.2.4 `remove_dot_segments`, phrased on segment lists.
`acc` holds the already-output segments in reverse.  A final `"."` or
`".."` leaves a trailing empty segment (i.e. a trailing slash), exactly as
the string algorithm does. -/
def rds (acc : List String) : List String → List String
  | [] => acc.reverse
  | s :: rest =>
    if rest.isEmpty then
      if s = "." then ("" :: acc).reverse
      else if s = ".." then ("" :: acc.drop 1).reverse
      else (s :: acc).reverse
    else
      if s = "." then rds acc rest
      else if s = ".." then rds (acc.drop 1) rest
      else rds (s :: acc) rest

/-- RFC 3986 §5.3 reassembly of a segment list into a path-and-beyond
string (without the leading `/`, which `urlToString` adds). -/
def renderPath : List String → String
  | [] => ""
  | [s] => s
  | s :: rest => s ++ "/" ++ renderPath rest

/-- `Url::to_string`. -/
def urlToString (u : Url) : String :=
  u.scheme ++ "://" ++ u.host ++ "/" ++ renderPath u.path

/-- `Url::join(base, ref)` for *relative* references, per RFC 3986 §5.2.2:
a reference starting with `/` replaces the whole path; any other reference
is merged onto the base path (all segments of the base but the last, then
the reference's segments), and dot segments are then removed.  References
that carry a scheme or an authority (`//…`) are outside this model; every
reference this program joins is relative. -/
def urlJoin (base : Url) (ref : String) : Url :=
  if ref.toList.headD 'x' = '/' then
    { base with path := rds [] ((splitChars (ref.toList.drop 1)).map List.asString) }
  else
    { base with path := rds [] (base.path.dropLast ++ splitSegs ref) }

/-- `Url::parse("https://books.toscrape.com/")`, the `HOMEPAGE` constant of
`build_books_toscrape_url` (path `/`). -/
def homepage : Url :=
  ⟨"https", "books.toscrape.com", [""]⟩

/-- `site_url.rs::build_books_toscrape_url`: join `path` onto the fixed
homepage.  (In Rust the result is `Result<Url, ParseError>`; on the
relative references in the model's domain the join never fails, so the
model returns the `Url` directly.) -/
def build_books_toscrape_url (path : String) : Url :=
  urlJoin homepage path

/-- `str::trim_start_matches("../")`: repeatedly remove the prefix `../`. -/
def trimLeadingParentDirs : List Char → List Char
  | '.' :: '.' :: '/' :: rest => trimLeadingParentDirs rest
  | l => l

/-- `path.trim_start_matches("../")` on strings. -/
def trimStartParentDirs (s : String) : String :=
  (trimLeadingParentDirs s.toList).asString

/-- `site_url.rs::build_book_page_url`:
`build_books_toscrape_url("catalogue/")?.join(path.trim_start_matches("../"))`. -/
def build_book_page_url (path : String) : Url :=
  urlJoin (build_books_toscrape_url "catalogue/") (trimStartParentDirs path)

/-- `site_url.rs::build_catelogue_url`:
`build_books_toscrape_url(&format!("catalogue/page-{}.html", page))`, with
`format!("{}", page)` on a `u32` rendering the decimal digits `Nat.repr`. -/
def build_catelogue_url (page : Nat) : Url :=
  build_books_toscrape_url ("catalogue/page-" ++ Nat.repr page ++ ".html")

/-- Spec-modelled counterpart of the href normalization, following the
spec's words: "strips any number of leading `../` segments". -/
def specStripParentDirs (l : List Char) : List Char :=
  if l.take 3 = ['.', '.', '/'] then specStripParentDirs (l.drop 3) else l
termination_by l.length
decreasing_by
  simp_wf
  rename_i h
  have h3 : 3 ≤ l.length := by
    have := congrArg List.length h
    simp [List.length_take] at this
    omega
  simp [List.length_drop]
  omega

/-! ### Permissive digit extraction (`main.rs::parse_int`) -/

/-- The character run `input.chars().skip_while(|c| !c.is_ascii_digit())
.take_while(char::is_ascii_digit)` of `parse_int`. -/
def firstDigitRun (s : String) : List Char :=
  (s.toList.dropWhile (fun c => !c.isDigit)).takeWhile (fun c => c.isDigit)

/-- Decimal value of a digit run (`char::to_digit` accumulation performed by
`str::parse::<u32>` on an all-digit string). -/
def digitsVal (l : List Char) : Nat :=
  l.foldl (fun a c => a * 10 + (c.toNat - 48)) 0

/-- `main.rs::parse_int`: collect the first maximal ASCII-digit run and
`parse::<u32>` it.  The parse errs on the empty string and on overflow
past `u32::MAX`; `none` models `Err(ParseIntError)`. -/
def parse_int (s : String) : Option Nat :=
  if firstDigitRun s = [] then none
  else if digitsVal (firstDigitRun s) < 4294967296 then
    some (digitsVal (firstDigitRun s))
  else none

/-- Spec-worded digit scanner: scan left-to-right, skip every character
until the first ASCII digit, then take the maximal following digit run. -/
def specDigitScan : List Char → List Char
  | [] => []
  | c :: rest =>
    if c.isDigit then (c :: rest).takeWhile (fun c => c.isDigit)
    else specDigitScan rest

/-- Spec-worded permissive parse: the scanned run as an unsigned integer,
no run meaning no value. -/
def spec_parse_int (s : String) : Option Nat :=
  if specDigitScan s.toList = [] then none
  else if digitsVal (specDigitScan s.toList) < 4294967296 then
    some (digitsVal (specDigitScan s.toList))
  else none

/-! ### Detail pages and record extraction (`Book`)

The HTML engine is a collaborator boundary: a detail-page `Document` enters
the extractors only through six fixed selector queries, each used as
"first match, full text" (for the star rating, "first match, `class`
attribute").  `BookPage` records exactly those query results, `none` when
the selector matches no element. -/

structure BookPage where
  /-- Text of the first match of `div[class$='product_main'] h1`. -/
  productMainH1 : Option String
  /-- Text of the first match of `tbody tr:first-of-type td`. -/
  firstRowTd : Option String
  /-- Text of the first match of `div[class$='product_main']  p[class^='price']`. -/
  priceP : Option String
  /-- Text of the first match of `div[class$='product_main'] p[class^='instock']`. -/
  instockP : Option String
  /-- Text of the first match of `tbody tr:last-of-type td`. -/
  lastRowTd : Option String
  /-- First match of `div[class$='product_main'] p[class^='star-rating']`:
  `none` if no element, otherwise its `class` attribute (itself optional). -/
  starRatingClass : Option (Option String)
deriving DecidableEq, Repr

/-- The scraped record (`Book` in `main.rs`/`book.rs`). -/
structure Book where
  title : String
  upc : String
  price : String
  available : Nat
  reviews : Nat
  rating : Nat
deriving DecidableEq, Repr

/-- `Vec::iter().position`: index of the first occurrence. -/
def position (l : List String) (s : String) : Option Nat :=
  match l with
  | [] => none
  | x :: rest => if x = s then some 0 else (position rest s).map (· + 1)

/-- The ordinal list of `extract_rating`. -/
def ratings : List String := ["Zero", "One", "Two", "Three", "Four", "Five"]

namespace Book

def extract_title (p : BookPage) : Except String String :=
  match p.productMainH1 with
  | some t => .ok t
  | none => .error "Failed to extract title from book page"

def extract_upc (p : BookPage) : Except String String :=
  match p.firstRowTd with
  | some t => .ok t
  | none => .error "Failed to extract upc from book page"

def extract_price (p : BookPage) : Except String String :=
  match p.priceP with
  | some t => .ok t
  | none => .error "Failed to extract price from book page"

/-- `extract_available`: error when the stock-status selector matches no
element; otherwise `parse_int(&text).unwrap_or(0)`. -/
def extract_available (p : BookPage) : Except String Nat :=
  match p.instockP with
  | some text => .ok ((parse_int text).getD 0)
  | none => .error "Failed to availability from book page"

/-- `extract_reviews`: error when the last-row selector matches no element;
otherwise `parse_int(&text).unwrap_or(0)`. -/
def extract_reviews (p : BookPage) : Except String Nat :=
  match p.lastRowTd with
  | some text => .ok ((parse_int text).getD 0)
  | none => .error "Failed to extract title from book page"

/-- The class-name suffix of `extract_rating`:
`attr("class").unwrap_or("").split(' ').last().unwrap_or("")` followed by
`ratings.iter().position(...)`. -/
def ratingPos (attr : Option String) : Option Nat :=
  position ratings (((splitOnChar ' ' (attr.getD "").toList).map List.asString).getLastD "")

/-- `extract_rating`: error when the star-rating selector matches no
element, else map the class suffix over the ordinal list. -/
def extract_rating (p : BookPage) : Except String Nat :=
  match p.starRatingClass with
  | some attr =>
    match ratingPos attr with
    | some k => .ok k
    | none => .error "Could not convert text to string"
  | none => .error "Failed to extract rating from book page"

/-- `Book::from_html`: all six extractions, any error aborting the record. -/
def from_html (p : BookPage) : Except String Book := do
  let title ← extract_title p
  let upc ← extract_upc p
  let price ← extract_price p
  let available ← extract_available p
  let reviews ← extract_reviews p
  let rating ← extract_rating p
  return ⟨title, upc, price, available, reviews, rating⟩

end Book

/-! ### Listing walker and detail pipeline (`main`) -/

/-- `CatelogueUrlIterator::next` after the count was incremented to `n`:
a URL while `n < 50`, `None` from 50 on. -/
def catelogueUrlIteratorNext (n : Nat) : Option Url :=
  if n < 50 then some (build_catelogue_url n) else none

/-- The page indices the iterator emits URLs for: 1 through 49. -/
def listingPages : List Nat := (List.range 49).map (· + 1)

/-- Truncate a result sequence at its first failure
(`take_while(|page| page.is_ok()).map(|page| page.unwrap())`). -/
def takeWhileSome {α : Type} : List (Option α) → List α
  | [] => []
  | none :: _ => []
  | some a :: rest => a :: takeWhileSome rest

/-- The listing walker of `main`: fetch+parse each iterator page in order
(`buffered` preserves order) and cut the sequence at the first failure.
`outcome n` is the fetch+parse result for page `n` (`none` = failure). -/
def walkerOutput {α : Type} (outcome : Nat → Option α) : List α :=
  takeWhileSome (listingPages.map outcome)

/-- The link extractor of `main`: per anchor under
`article.product_pod a[title]`, `filter_map` on the `href` attribute, then
`filter_map` on `build_book_page_url(x).ok()`.  `resolve` abstracts the
fallible URL resolution. -/
def extractLinks (resolve : String → Option Url) (anchors : List (Option String)) : List Url :=
  (anchors.filterMap id).filterMap resolve

/-- The detail pipeline of `main`: for each detail URL, the fetch+parse
outcome (`fetches` entry) is fed through `Book::from_html(&page?)`; a fetch
error propagates into that element only.  `collect::<Vec<Result<Book>>>`
keeps every element, failed or not. -/
def detailResults (fetches : List (Except String BookPage)) : List (Except String Book) :=
  fetches.map (fun r => r.bind Book.from_html)

/-- The final loop of `main` logs exactly the `Ok` records. -/
def loggedBooks (results : List (Except String Book)) : List Book :=
  results.filterMap (fun r => r.toOption)

/-- `log::info!("Number of books scraped: {}", books.len())`: the reported
count is the length of the whole result vector. -/
def reportedCount (results : List (Except String Book)) : Nat :=
  results.length

/-! ### Concrete fixtures -/

/-- A detail page on which every extraction succeeds. -/
def goodPage : BookPage :=
  ⟨some "A Light in the Attic", some "a897fe39b1053632", some "£51.77",
   some "In stock (22 available)", some "0", some (some "star-rating Three")⟩

/-- `goodPage` with the price element missing. -/
def noPricePage : BookPage := { goodPage with priceP := none }

/-- `goodPage` with the stock-status element missing. -/
def missingStockPage : BookPage := { goodPage with instockP := none }

/-- A page holding only a stock-status element with text `t`. -/
def stockOnlyPage (t : String) : BookPage := ⟨none, none, none, some t, none, none⟩

/-- A page holding only a last-table-row element with text `t`. -/
def reviewOnlyPage (t : String) : BookPage := ⟨none, none, none, none, some t, none⟩

/-- Eight detail-fetch outcomes of which exactly one (a page missing its
price element) fails record extraction. -/
def eightFetches : List (Except String BookPage) :=
  [.ok goodPage, .ok goodPage, .ok goodPage, .ok goodPage,
   .ok goodPage, .ok goodPage, .ok goodPage, .ok noPricePage]

/-- Listing outcomes: pages 1–60 succeed (the parsed document for page `n`
is modelled as `n`), every later page fails. -/
def out60 : Nat → Option Nat := fun n => if n ≤ 60 then some n else none

/-- Listing outcomes: pages 1–3 succeed, page 4 onward fails. -/
def outcome3 : Nat → Option Nat := fun n => if n ≤ 3 then some n else none

/-! ### Helper lemmas -/

theorem position_lt_length {l : List String} {s : String} {k : Nat}
    (h : position l s = some k) : k < l.length := by
  induction l generalizing k with
  | nil => simp [position] at h
  | cons x rest ih =>
    rw [position] at h
    split at h
    · cases h
      simp
    · obtain ⟨m, hm, hmk⟩ := Option.map_eq_some'.mp h
      have := ih hm
      simp only [List.length_cons]
      omega

theorem takeWhileSome_all_some {α : Type} {l : List (Option α)}
    (h : ∀ x ∈ l, x.isSome) : takeWhileSome l = l.filterMap id := by
  induction l with
  | nil => rfl
  | cons x rest ih =>
    cases x with
    | none => exact absurd (h none (by simp)) (by simp)
    | some a =>
      rw [takeWhileSome, List.filterMap_cons]
      simp only [id]
      rw [ih (fun x hx => h x (List.mem_cons_of_mem _ hx))]

theorem takeWhileSome_append_none {α : Type} {l₁ l₂ : List (Option α)}
    (h : ∀ x ∈ l₁, x.isSome) :
    takeWhileSome (l₁ ++ none :: l₂) = takeWhileSome l₁ := by
  induction l₁ with
  | nil => rfl
  | cons x rest ih =>
    cases x with
    | none => exact absurd (h none (by simp)) (by simp)
    | some a =>
      rw [List.cons_append, takeWhileSome, takeWhileSome,
        ih (fun x hx => h x (List.mem_cons_of_mem _ hx))]

theorem specDigitScan_eq (l : List Char) :
    specDigitScan l = (l.dropWhile (fun c => !c.isDigit)).takeWhile (fun c => c.isDigit) := by
  induction l with
  | nil => rfl
  | cons c rest ih =>
    by_cases hc : c.isDigit
    · simp [specDigitScan, List.dropWhile_cons, hc]
    · simp only [specDigitScan, List.dropWhile_cons]
      rw [if_neg (by simpa using hc), if_pos (by simpa using hc), ih]

theorem toList_append (a b : String) : (a ++ b).toList = a.toList ++ b.toList :=
  String.data_append a b

theorem asString_append (l₁ l₂ : List Char) :
    (l₁ ++ l₂).asString = l₁.asString ++ l₂.asString :=
  rfl

theorem str_append_assoc (a b c : String) : a ++ (b ++ c) = a ++ b ++ c := by
  apply String.toList_inj.mp
  rw [toList_append, toList_append, toList_append, toList_append, List.append_assoc]

theorem digitChar_ne_slash (m : Nat) : Nat.digitChar m ≠ '/' := by
  rcases Nat.lt_or_ge m 16 with h | h
  · interval_cases m <;> decide
  · unfold Nat.digitChar
    repeat rw [if_neg (by omega)]
    decide

theorem toDigitsCore_mem (b : Nat) : ∀ (f n : Nat) (ds : List Char) (c : Char),
    c ∈ Nat.toDigitsCore b f n ds → c ∈ ds ∨ ∃ m, c = Nat.digitChar m := by
  intro f
  induction f with
  | zero => exact fun n ds c hc => Or.inl hc
  | succ f ih =>
    intro n ds c hc
    simp only [Nat.toDigitsCore] at hc
    split at hc
    · rcases List.mem_cons.mp hc with h | h
      · exact Or.inr ⟨n % b, h⟩
      · exact Or.inl h
    · rcases ih _ _ _ hc with h | h
      · rcases List.mem_cons.mp h with h1 | h1
        · exact Or.inr ⟨n % b, h1⟩
        · exact Or.inl h1
      · exact Or.inr h

theorem repr_no_slash (n : Nat) : '/' ∉ (Nat.repr n).toList := by
  intro h
  unfold Nat.repr at h
  rw [List.toList_asString, Nat.toDigits] at h
  rcases toDigitsCore_mem 10 _ _ _ _ h with h1 | ⟨m, hm⟩
  · exact absurd h1 (List.not_mem_nil _)
  · exact digitChar_ne_slash m hm.symm

theorem splitOnChar_of_not_mem {sep : Char} {l : List Char} (h : sep ∉ l) :
    splitOnChar sep l = [l] := by
  induction l with
  | nil => rfl
  | cons c rest ih =>
    have hc : ¬ c = sep := fun hcc => h (by simp [hcc])
    rw [splitOnChar, if_neg hc, ih (fun hm => h (List.mem_cons_of_mem _ hm))]

theorem splitOnChar_append {sep : Char} {pre : List Char} (h : sep ∉ pre) (l : List Char) :
    splitOnChar sep (pre ++ sep :: l) = pre :: splitOnChar sep l := by
  induction pre with
  | nil => simp [splitOnChar]
  | cons c rest ih =>
    have hc : ¬ c = sep := fun hcc => h (by simp [hcc])
    rw [List.cons_append, splitOnChar, if_neg hc,
      ih (fun hm => h (List.mem_cons_of_mem _ hm))]

theorem trimLeadingParentDirs_eq_spec (l : List Char) :
    trimLeadingParentDirs l = specStripParentDirs l := by
  have key : ∀ fuel (l : List Char), l.length ≤ fuel →
      trimLeadingParentDirs l = specStripParentDirs l := by
    intro fuel
    induction fuel with
    | zero =>
      intro l hl
      have : l = [] := List.length_eq_zero.mp (Nat.le_zero.mp hl)
      subst this
      rw [specStripParentDirs, if_neg (by decide)]
      rfl
    | succ fuel ih =>
      intro l hl
      rw [specStripParentDirs]
      split
      · rename_i h
        have h3 : 3 ≤ l.length := by
          have := congrArg List.length h
          simp [List.length_take] at this
          omega
        have hl3 : l = '.' :: '.' :: '/' :: l.drop 3 := by
          conv_lhs => rw [← List.take_append_drop 3 l, h]
          rfl
        conv_lhs => rw [hl3]
        rw [trimLeadingParentDirs]
        exact ih _ (by simp [List.length_drop]; omega)
      · rename_i h
        unfold trimLeadingParentDirs
        split
        · exact absurd rfl h
        · rfl
  exact key l.length l le_rfl

/-! ### Claim theorems -/

/-- C1: the claim says the reported final count equals the number of detail
pages whose record extraction succeeded.  The code instead reports the
length of the whole `Vec<Result<Book>>`, failures included: on eight
fetched detail pages of which one is missing its price element, the logged
records number 7 but the reported count is 8. -/
theorem c1_reported_count_counts_failures :
    reportedCount (detailResults eightFetches) = 8 ∧
    (loggedBooks (detailResults eightFetches)).length = 7 ∧
    reportedCount (detailResults eightFetches) ≠
      (loggedBooks (detailResults eightFetches)).length := by
  have h1 : reportedCount (detailResults eightFetches) = 8 := by decide
  have h2 : (loggedBooks (detailResults eightFetches)).length = 7 := by decide
  exact ⟨h1, h2, by omega⟩

/-- C2 counterexample: on a page whose stock-status element is absent,
title, upc, price and rating extraction all succeed, yet record
construction fails — refuting "whenever extraction of title, externalId,
price, and rating succeed, Record construction succeeds … including when
their selector matches no element". -/
theorem c2_counterexample_missing_stock_aborts :
    (Book.extract_title missingStockPage).isOk = true ∧
    (Book.extract_upc missingStockPage).isOk = true ∧
    (Book.extract_price missingStockPage).isOk = true ∧
    (Book.extract_rating missingStockPage).isOk = true ∧
    (Book.from_html missingStockPage).isOk = false := by
  refine ⟨rfl, rfl, rfl, rfl, rfl⟩

/-- C2 (amended): when all six selector targets are present and the rating
suffix maps, record construction succeeds, and `available` / `reviews`
default to 0 exactly when the permissive digit parse of the present
element's text fails; a missing `available`/`reviews` element aborts the
record (see the counterexample). -/
theorem c2_available_reviews_default_on_parse_failure
    (t u pr sa rv : String) (cls : Option String) (k : Nat)
    (hk : Book.ratingPos cls = some k) :
    Book.from_html ⟨some t, some u, some pr, some sa, some rv, some cls⟩ =
      .ok ⟨t, u, pr, (parse_int sa).getD 0, (parse_int rv).getD 0, k⟩ := by
  simp only [Book.from_html, Book.extract_title, Book.extract_upc, Book.extract_price,
    Book.extract_available, Book.extract_reviews, Book.extract_rating, hk]
  rfl

/-- Witness for C2's amended theorem at a concrete page. -/
theorem c2_witness :
    Book.from_html ⟨some "T", some "U", some "£1", some "In stock (19 available)",
        some "Out of stock", some (some "star-rating Three")⟩ =
      .ok ⟨"T", "U", "£1", 19, 0, 3⟩ := by
  rw [c2_available_reviews_default_on_parse_failure "T" "U" "£1"
    "In stock (19 available)" "Out of stock" (some "star-rating Three") 3 (by decide)]
  rfl

/-- C4: `parse_int` realizes the spec's permissive digit extractor (skip
to the first ASCII digit, take the maximal contiguous run, parse as an
unsigned integer), the spec's concrete vectors hold, and on digit-free
text the `available`/`reviews` extractors yield 0 rather than an error. -/
theorem c4_permissive_digit_extraction (s t : String)
    (hnd : ∀ c ∈ t.toList, ¬ c.isDigit) :
    parse_int s = spec_parse_int s ∧
    parse_int t = none ∧
    Book.extract_available (stockOnlyPage t) = .ok 0 ∧
    Book.extract_reviews (reviewOnlyPage t) = .ok 0 ∧
    parse_int "In stock (19 available)" = some 19 ∧
    parse_int "Out of stock (0 available)" = some 0 ∧
    Book.extract_available (stockOnlyPage "Out of stock") = .ok 0 ∧
    Book.extract_reviews (reviewOnlyPage "Out of stock") = .ok 0 := by
  have hrun : firstDigitRun t = [] := by
    unfold firstDigitRun
    have hd : t.toList.dropWhile (fun c => !c.isDigit) = [] := by
      rw [List.dropWhile_eq_nil_iff]
      intro x hx
      simpa using hnd x hx
    rw [hd]
    rfl
  have hpt : parse_int t = none := by rw [parse_int, if_pos hrun]
  refine ⟨?_, hpt, ?_, ?_, by decide, by decide, rfl, rfl⟩
  · unfold parse_int spec_parse_int firstDigitRun
    rw [specDigitScan_eq]
  · simp [Book.extract_available, stockOnlyPage, hpt]
  · simp [Book.extract_reviews, reviewOnlyPage, hpt]

/-- Witness for C4 at concrete strings. -/
theorem c4_witness :
    parse_int "Out of stock" = none ∧
    Book.extract_available (stockOnlyPage "Out of stock") = .ok 0 := by
  have h := c4_permissive_digit_extraction "abc" "Out of stock" (by decide)
  exact ⟨h.2.1, h.2.2.1⟩

/-- C5: whenever the star-rating element is present, `extract_rating`
returns exactly the position of the class-name suffix in
`[Zero, One, Two, Three, Four, Five]` (an error when the suffix is not in
the list), every successful rating is at most 5, suffix `Three` maps to 3,
and an unmapped suffix aborts the whole record. -/
theorem c5_rating_is_ordinal_position (p : BookPage) (attr : Option String)
    (h : p.starRatingClass = some attr) :
    Book.extract_rating p =
      (match Book.ratingPos attr with
       | some k => Except.ok k
       | none => Except.error "Could not convert text to string") ∧
    (∀ k, Book.ratingPos attr = some k → k ≤ 5) ∧
    Book.ratingPos (some "star-rating Three") = some 3 ∧
    (Book.from_html { goodPage with starRatingClass := some (some "star-rating Unknown") }).isOk
      = false := by
  refine ⟨?_, ?_, by decide, by decide⟩
  · rw [Book.extract_rating, h]
  · intro k hk
    unfold Book.ratingPos at hk
    have hlen := position_lt_length hk
    simp only [ratings] at hlen
    simp only [List.length_cons, List.length_nil] at hlen
    omega

/-- Witness for C5 at a concrete page with suffix `Three`. -/
theorem c5_witness : Book.extract_rating goodPage = .ok 3 ∧ (3 : Nat) ≤ 5 := by
  have h := c5_rating_is_ordinal_position goodPage (some "star-rating Three") rfl
  refine ⟨?_, by decide⟩
  rw [h.1]
  rfl

/-- C8: joining `"/multiple/paths"` onto the base URL equals joining
`"multiple/paths"` — the leading slash resolves against the base (whose
path is the root `/`), not to a different host-root. -/
theorem c8_leading_slash_does_not_escape :
    build_books_toscrape_url "/multiple/paths" = build_books_toscrape_url "multiple/paths" ∧
    urlToString (build_books_toscrape_url "/multiple/paths") =
      "https://books.toscrape.com/multiple/paths" := by
  exact ⟨rfl, rfl⟩

/-- C9: detail-stage failures are local.  The pipeline maps every fetch
outcome to its own `Result` entry — its length never shrinks, and changing
one URL's outcome leaves every other position's result unchanged — and
link extraction silently skips an anchor with no `href` attribute as well
as one whose `href` fails to resolve to a URL. -/
theorem c9_detail_failures_are_local (fetches : List (Except String BookPage))
    (i j : Nat) (r : Except String BookPage) (hij : j ≠ i)
    (resolve : String → Option Url) (anchors : List (Option String))
    (href : String) (hfail : resolve href = none) :
    (detailResults fetches).length = fetches.length ∧
    (detailResults (fetches.set i r))[j]? = (detailResults fetches)[j]? ∧
    extractLinks resolve (none :: anchors) = extractLinks resolve anchors ∧
    extractLinks resolve (some href :: anchors) = extractLinks resolve anchors := by
  refine ⟨by simp [detailResults], ?_, rfl, ?_⟩
  · unfold detailResults
    rw [List.map_set]
    exact List.getElem?_set_ne (Ne.symm hij)
  · unfold extractLinks
    simp [List.filterMap_cons, hfail]

/-- Witness for C9 at a concrete configuration. -/
theorem c9_witness :
    (detailResults [Except.ok goodPage]).length = 1 ∧
    extractLinks (fun _ => none) [some "x"] = extractLinks (fun _ => none) [] := by
  have h := c9_detail_failures_are_local [Except.ok goodPage] 0 1
    (Except.error "boom") (by decide) (fun _ => none) [] "x" rfl
  exact ⟨h.1, h.2.2.2⟩

/-- C3 counterexample: with listing outcomes where pages 1–60 all succeed
and page 61 is the first failure, the claim says the walker emits the
documents of pages 1–60; the code's iterator stops unconditionally after
page 49, so the output differs. -/
theorem c3_counterexample_hard_page_cap :
    walkerOutput out60 ≠ (List.range 60).map (· + 1) := by decide

/-- C3 (amended): the walker's output is the successfully parsed documents
of pages 1, 2, 3, … up to the first fetch/parse failure *or* up to the
iterator's built-in cap of 49 pages, whichever comes first. -/
theorem c3_walker_truncates_at_failure_or_cap {α : Type} (outcome : Nat → Option α)
    (f : Nat) (h1 : 1 ≤ f)
    (hsucc : ∀ m, 1 ≤ m → m < f → (outcome m).isSome)
    (hfail : outcome f = none) :
    walkerOutput outcome = ((List.range (min (f - 1) 49)).map (· + 1)).filterMap outcome := by
  by_cases hf : f ≤ 49
  · have hmin : min (f - 1) 49 = f - 1 := by omega
    rw [hmin]
    unfold walkerOutput listingPages
    have h49 : (49 : Nat) = (f - 1) + (50 - f) := by omega
    have h50f : 50 - f = (49 - f) + 1 := by omega
    rw [h49, List.range_add, h50f, List.range_succ_eq_map]
    simp only [List.map_append, List.map_cons, List.map_map]
    have hfix : (f - 1) + 0 + 1 = f := by omega
    simp only [Function.comp_def, hfix] at *
    rw [hfail]
    rw [takeWhileSome_append_none (by
      intro x hx
      obtain ⟨m, hm, hmx⟩ := List.mem_map.mp hx
      subst hmx
      exact hsucc _ (by omega) (by
        have := List.mem_range.mp hm
        omega))]
    rw [takeWhileSome_all_some (by
      intro x hx
      obtain ⟨m, hm, hmx⟩ := List.mem_map.mp hx
      subst hmx
      exact hsucc _ (by omega) (by
        have := List.mem_range.mp hm
        omega))]
    simp [List.filterMap_map, Function.comp_def]
  · have hmin : min (f - 1) 49 = 49 := by omega
    rw [hmin]
    unfold walkerOutput listingPages
    rw [takeWhileSome_all_some (by
      intro x hx
      obtain ⟨i, hi, hxi⟩ := List.mem_map.mp hx
      obtain ⟨m, hm, hmi⟩ := List.mem_map.mp hi
      subst hxi hmi
      exact hsucc _ (by omega) (by
        have := List.mem_range.mp hm
        omega))]
    rw [List.filterMap_map]
    rfl

/-- Witness for C3's amended theorem: pages 1–3 succeed, page 4 fails. -/
theorem c3_witness :
    walkerOutput outcome3 = ((List.range (min 3 49)).map (· + 1)).filterMap outcome3 := by
  exact c3_walker_truncates_at_failure_or_cap outcome3 4 (by decide)
    (fun m hm1 hm4 => by
      simp only [outcome3]
      rw [if_pos (by omega)]
      rfl)
    rfl

/-- C6: for every representable positive page number `n`, building the
listing URL succeeds and yields
`https://books.toscrape.com/catalogue/page-<n>.html`. -/
theorem c6_listing_url_shape (n : Nat) (hpos : 1 ≤ n) (hrep : n < 4294967296) :
    build_catelogue_url n =
      ⟨"https", "books.toscrape.com", ["catalogue", "page-" ++ Nat.repr n ++ ".html"]⟩ ∧
    urlToString (build_catelogue_url n) =
      "https://books.toscrape.com/catalogue/page-" ++ Nat.repr n ++ ".html" := by
  have hD : '/' ∉ (Nat.repr n).toList := repr_no_slash n
  have hrest : '/' ∉ ("page-".toList ++ ((Nat.repr n).toList ++ ".html".toList)) := by
    intro hm
    rcases List.mem_append.mp hm with h | h
    · exact absurd h (by decide)
    · rcases List.mem_append.mp h with h1 | h1
      · exact hD h1
      · exact absurd h1 (by decide)
  have hlist : ("catalogue/page-" ++ Nat.repr n ++ ".html").toList =
      "catalogue".toList ++ '/' :: ("page-".toList ++ ((Nat.repr n).toList ++ ".html".toList)) := by
    rw [toList_append, toList_append]
    rw [show "catalogue/page-".toList = "catalogue".toList ++ '/' :: "page-".toList from by decide]
    simp [List.append_assoc]
  have hsplit : splitChars ("catalogue/page-" ++ Nat.repr n ++ ".html").toList =
      ["catalogue".toList, "page-".toList ++ ((Nat.repr n).toList ++ ".html".toList)] := by
    rw [hlist]
    unfold splitChars
    rw [splitOnChar_append (by decide), splitOnChar_of_not_mem hrest]
  have hseg : ("page-".toList ++ ((Nat.repr n).toList ++ ".html".toList)).asString =
      "page-" ++ Nat.repr n ++ ".html" := by
    simp only [asString_append, String.asString_toList]
    rw [str_append_assoc]
  have hsegs : splitSegs ("catalogue/page-" ++ Nat.repr n ++ ".html") =
      ["catalogue", "page-" ++ Nat.repr n ++ ".html"] := by
    unfold splitSegs
    rw [hsplit]
    simp only [List.map_cons, List.map_nil]
    rw [hseg, String.asString_toList]
  have hs1 : ¬ ("page-" ++ Nat.repr n ++ ".html" = ".") := by
    intro hcon
    have hlen := congrArg String.length hcon
    rw [String.length_append, String.length_append] at hlen
    have e1 : ("page-" : String).length = 5 := rfl
    have e2 : ((".html" : String)).length = 5 := rfl
    have e3 : (("." : String)).length = 1 := rfl
    rw [e1, e2, e3] at hlen
    omega
  have hs2 : ¬ ("page-" ++ Nat.repr n ++ ".html" = "..") := by
    intro hcon
    have hlen := congrArg String.length hcon
    rw [String.length_append, String.length_append] at hlen
    have e1 : ("page-" : String).length = 5 := rfl
    have e2 : ((".html" : String)).length = 5 := rfl
    have e3 : ((".." : String)).length = 2 := rfl
    rw [e1, e2, e3] at hlen
    omega
  have hrds : rds [] ["catalogue", "page-" ++ Nat.repr n ++ ".html"] =
      ["catalogue", "page-" ++ Nat.repr n ++ ".html"] := by
    rw [rds]
    rw [if_neg (by simp), if_neg (by decide : ¬("catalogue" = ".")),
      if_neg (by decide : ¬("catalogue" = ".."))]
    rw [rds]
    rw [if_pos (show ([] : List String).isEmpty = true from rfl), if_neg hs1, if_neg hs2]
    rfl
  have hhead : ("catalogue/page-" ++ Nat.repr n ++ ".html").toList.headD 'x' = 'c' := by
    rw [hlist, show "catalogue".toList = 'c' :: "atalogue".toList from by decide]
    rfl
  have h1 : build_catelogue_url n =
      ⟨"https", "books.toscrape.com", ["catalogue", "page-" ++ Nat.repr n ++ ".html"]⟩ := by
    unfold build_catelogue_url build_books_toscrape_url urlJoin homepage
    rw [if_neg (fun hcon => by rw [hhead] at hcon; exact absurd hcon (by decide))]
    rw [hsegs]
    simp only [List.dropLast_single, List.nil_append]
    rw [hrds]
  refine ⟨h1, ?_⟩
  rw [h1]
  unfold urlToString
  rw [show renderPath ["catalogue", "page-" ++ Nat.repr n ++ ".html"] =
    "catalogue" ++ "/" ++ ("page-" ++ Nat.repr n ++ ".html") from rfl]
  apply String.toList_inj.mp
  simp only [toList_append]
  rw [show ("https://books.toscrape.com/catalogue/page-").toList =
    "https".toList ++ "://".toList ++ "books.toscrape.com".toList ++ "/".toList ++
      "catalogue".toList ++ "/".toList ++ "page-".toList from by decide]
  simp [List.append_assoc]

/-- Witness for C6 at page 1. -/
theorem c6_witness :
    urlToString (build_catelogue_url 1) = "https://books.toscrape.com/catalogue/page-1.html" := by
  rw [(c6_listing_url_shape 1 (by decide) (by decide)).2]
  decide

/-- C7: building a detail URL strips every leading `../` segment exactly
as the spec words it, then URL-joins the remainder onto
`base/catalogue/`; the spec's two concrete vectors hold. -/
theorem c7_detail_url_strip_and_join (href : String) :
    build_book_page_url href =
      urlJoin (build_books_toscrape_url "catalogue/") ((specStripParentDirs href.toList).asString) ∧
    trimStartParentDirs href = (specStripParentDirs href.toList).asString ∧
    urlToString (build_book_page_url "../../../foo_1/index.html") =
      "https://books.toscrape.com/catalogue/foo_1/index.html" ∧
    urlToString (build_book_page_url "abc") = "https://books.toscrape.com/catalogue/abc" := by
  have ht : trimStartParentDirs href = (specStripParentDirs href.toList).asString := by
    unfold trimStartParentDirs
    rw [trimLeadingParentDirs_eq_spec]
  refine ⟨?_, ht, by decide, by decide⟩
  unfold build_book_page_url
  rw [ht]

/-- Witness for C7 at the href `abc`. -/
theorem c7_witness :
    urlToString (build_book_page_url "abc") = "https://books.toscrape.com/catalogue/abc" :=
  (c7_detail_url_strip_and_join "abc").2.2.2

/-- C10: when the first maximal digit run encodes a value past
`u32::MAX`, the permissive parse fails and the `available` / `reviews`
extractors return the default 0, exactly as for digit-free text. -/
theorem c10_overflow_defaults_to_zero (s : String)
    (hbig : 4294967296 ≤ digitsVal (firstDigitRun s)) :
    parse_int s = none ∧
    Book.extract_available (stockOnlyPage s) = .ok 0 ∧
    Book.extract_reviews (reviewOnlyPage s) = .ok 0 := by
  have hp : parse_int s = none := by
    unfold parse_int
    split
    · rfl
    · rw [if_neg (by omega)]
  exact ⟨hp, by simp [Book.extract_available, stockOnlyPage, hp],
    by simp [Book.extract_reviews, reviewOnlyPage, hp]⟩

/-- Witness for C10 at a stock-status text carrying `2^32`. -/
theorem c10_witness :
    parse_int "In stock (4294967296 available)" = none ∧
    Book.extract_available (stockOnlyPage "In stock (4294967296 available)") = .ok 0 := by
  have h := c10_overflow_defaults_to_zero "In stock (4294967296 available)" (by decide)
  exact ⟨h.1, h.2.1⟩

end BooksToScrape
